import Mathlib

/-!
Shallow embedding of the `model_registry` repository: the `ModelEntry`
record type (`src/model_registry/schemas.py`), the provider adapters
(`src/model_registry/providers/*.py`), the retry wrapper and base
provider (`providers/base.py`), and the merge / sort / change-detection
pipeline of `main.py`.  Python machine behaviour (dict insertion order,
tuple comparison, exceptions, string methods) is modelled explicitly.
-/

namespace ModelRegistry

/-- Python exception classes that appear in the modelled code paths. -/
inductive PyErr where
  | valueError
  | typeError
  | keyError
  | attributeError
  | validationError
  | requestError
  | osError
  | overflowError
  deriving DecidableEq, Repr

/-- A dynamically typed Python value as it can appear in a raw vendor
record field (the modelled code only ever distinguishes strings from
integers). -/
inductive PyVal where
  | vstr (s : String)
  | vint (n : Int)
  deriving DecidableEq, Repr

/-- Python truthiness for the values of `PyVal` (`if created_at:`). -/
def pyTruthy : PyVal → Bool
  | .vstr s => s ≠ ""
  | .vint n => n ≠ 0

/-- A calendar date, the result type of the adapters'
`get_release_date` (Python `datetime.date`). -/
structure Date where
  year : Nat
  month : Nat
  day : Nat
  deriving DecidableEq, Repr

/-- The far-future sentinel `date(9999, 12, 31)` used by every adapter
when no release date can be determined. -/
def sentinelDate : Date := ⟨9999, 12, 31⟩

/-- Number of days of a month, as validated by Python
`datetime.date(y, m, d)`. -/
def daysInMonth (y m : Nat) : Nat :=
  if m = 2 then
    if y % 4 = 0 ∧ (y % 100 ≠ 0 ∨ y % 400 = 0) then 29 else 28
  else if m = 4 ∨ m = 6 ∨ m = 9 ∨ m = 11 then 30
  else 31

/-- Validity of `datetime.date(y, m, d)`: Python rejects years outside
`[1, 9999]`, months outside `[1, 12]` and days outside the month. -/
def isValidDate (y m d : Nat) : Bool :=
  1 ≤ y && y ≤ 9999 && 1 ≤ m && m ≤ 12 && 1 ≤ d && d ≤ daysInMonth y m

/-- Civil-from-days conversion: the `(year, month, day)` in the
proleptic Gregorian calendar of day number `z` counted from the Unix
epoch 1970-01-01.  This models the calendar arithmetic behind Python
`datetime.datetime.fromtimestamp(ts, tz=timezone.utc)`. -/
def civilFromDays (z0 : Int) : Int × Nat × Nat :=
  let z : Int := z0 + 719468
  let era : Int := Int.fdiv z 146097
  let doe : Nat := (z - era * 146097).toNat
  let yoe : Nat := (doe - doe / 1460 + doe / 36524 - doe / 146096) / 365
  let y : Int := (yoe : Int) + era * 400
  let doy : Nat := doe - (365 * yoe + yoe / 4 - yoe / 100)
  let mp : Nat := (5 * doy + 2) / 153
  let d : Nat := doy - (153 * mp + 2) / 5 + 1
  let m : Nat := if mp < 10 then mp + 3 else mp - 9
  (if m ≤ 2 then y + 1 else y, m, d)

/-- Python `datetime.datetime.fromtimestamp(v, tz=timezone.utc).date()`
on a dynamically typed argument (64-bit Linux).  An integer timestamp
beyond the range of `time_t` raises `OverflowError`; one whose civil
year does not fit `gmtime`'s C `int tm_year` (year - 1900 outside
`[-2^31, 2^31)`) makes `gmtime_r` fail, raising `OSError`; a
convertible timestamp whose year falls outside `datetime`'s `[1, 9999]`
raises `ValueError`; a string argument raises `TypeError`.  Only
`ValueError` and `TypeError` are caught by the adapters' `except`
clauses. -/
def fromGmtime (c : Int × Nat × Nat) : Except PyErr Date :=
  if c.1 - 1900 < -(2 ^ 31) ∨ 2 ^ 31 - 1 < c.1 - 1900 then .error .osError
  else if 1 ≤ c.1 ∧ c.1 ≤ 9999 then .ok ⟨c.1.toNat, c.2.1, c.2.2⟩
  else .error .valueError

/-- See `fromGmtime` for the civil-date step of the conversion. -/
def fromtimestampDate : PyVal → Except PyErr Date
  | .vint ts =>
      if ts < -(2 ^ 63) ∨ 2 ^ 63 - 1 < ts then .error .overflowError
      else fromGmtime (civilFromDays (Int.fdiv ts 86400))
  | .vstr _ => .error .typeError

/-- The `created` epoch field (when present) converts without hitting
`datetime.fromtimestamp`'s uncaught `OSError`/`OverflowError` paths. -/
def epochSafe : Option PyVal → Bool
  | none => true
  | some v =>
      match fromtimestampDate v with
      | .error .osError => false
      | .error .overflowError => false
      | _ => true

/-- One `try` block of a pattern cascade: `none` when the pattern did
not match (the `try` body never runs); otherwise the body's outcome,
with exactly the listed exception classes caught (`except ...: pass`)
and any other exception propagating. -/
def attemptOpt (caught : List PyErr) : Option (Except PyErr Date) → Except PyErr (Option Date)
  | none => .ok none
  | some (.ok d) => .ok (some d)
  | some (.error e) => if e ∈ caught then .ok none else .error e

/-- Digit test used by the regex models (`\d` on ASCII digits). -/
def isDigitChar (c : Char) : Bool := '0' ≤ c ∧ c ≤ '9'

/-- Numeric value of a list of decimal digit characters
(`int("...")` on a digit-only match group). -/
def digitsToNat (l : List Char) : Nat :=
  l.foldl (fun acc c => acc * 10 + (c.toNat - '0'.toNat)) 0

/-- Python `str.lower()` (ASCII case folding suffices for the modelled
identifiers). -/
def strLower (s : String) : String := String.mk (s.data.map Char.toLower)

/-- Python substring containment `sub in s`, on character lists. -/
def subListIn (sub : List Char) : List Char → Bool
  | [] => sub = []
  | c :: rest => sub.isPrefixOf (c :: rest) || subListIn sub rest

/-- Python substring containment `sub in s` for strings. -/
def containsSub (s sub : String) : Bool := subListIn sub.data s.data

/-- Parse an `"YYYY-MM-DD"` string as a calendar date: exactly ten
characters, digits in the digit positions, dashes in positions 4 and 7,
and the digits must form a valid Python `datetime.date`.  This models
`date.fromisoformat` on the date-only format (the only shape the code
feeds it) and the date part of pydantic's ISO date validation. -/
def parseIsoDate (s : String) : Option Date :=
  match s.data with
  | [y1, y2, y3, y4, h1, m1, m2, h2, d1, d2] =>
      if (isDigitChar y1 && isDigitChar y2 && isDigitChar y3 && isDigitChar y4 &&
          h1 = '-' && isDigitChar m1 && isDigitChar m2 &&
          h2 = '-' && isDigitChar d1 && isDigitChar d2) then
        let y := digitsToNat [y1, y2, y3, y4]
        let m := digitsToNat [m1, m2]
        let d := digitsToNat [d1, d2]
        if isValidDate y m d then some ⟨y, m, d⟩ else none
      else none
  | _ => none

/-- Check that a character list spells `HH:MM:SS` with an optional
`.ffffff` fractional part, with in-range hour, minute and second. -/
def isValidTimePart (l : List Char) : Bool :=
  match l with
  | h1 :: h2 :: ':' :: m1 :: m2 :: ':' :: s1 :: s2 :: rest =>
      isDigitChar h1 && isDigitChar h2 && isDigitChar m1 && isDigitChar m2 &&
      isDigitChar s1 && isDigitChar s2 &&
      digitsToNat [h1, h2] < 24 && digitsToNat [m1, m2] < 60 &&
      digitsToNat [s1, s2] < 60 &&
      (match rest with
       | [] => true
       | '.' :: frac => frac ≠ [] && frac.all isDigitChar
       | _ => false)
  | _ => false

/-- Check a UTC-offset suffix: empty, `Z`/`z`, or `±HH:MM`. -/
def isValidOffsetPart (l : List Char) : Bool :=
  match l with
  | [] => true
  | ['Z'] => true
  | ['z'] => true
  | sign :: h1 :: h2 :: ':' :: m1 :: m2 :: [] =>
      (sign = '+' || sign = '-') && isDigitChar h1 && isDigitChar h2 &&
      isDigitChar m1 && isDigitChar m2 &&
      digitsToNat [h1, h2] < 24 && digitsToNat [m1, m2] < 60
  | _ => false

/-- Split a character list at the first occurrence of an offset marker
(`+`, `-`, `Z` or `z`), returning the time part and the offset part. -/
def splitAtSign (acc : List Char) : List Char → List Char × List Char
  | [] => (acc.reverse, [])
  | c :: rest =>
      if c = '+' || c = '-' || c = 'Z' || c = 'z' then (acc.reverse, c :: rest)
      else splitAtSign (c :: acc) rest

/-- Modelled after Python `datetime.datetime.fromisoformat(...).date()`,
restricted to the formats the Anthropic adapter feeds it:
`YYYY-MM-DD`, optionally followed by `T` or a space, a `HH:MM:SS[.ffffff]`
time and an optional `±HH:MM` offset.  Returns `none` where Python
raises `ValueError`. -/
def parseIsoDatetimeDate (s : String) : Option Date :=
  let l := s.data
  let datePart := l.take 10
  let rest := l.drop 10
  match parseIsoDate (String.mk datePart) with
  | none => none
  | some d =>
      match rest with
      | [] => some d
      | sep :: tl =>
          if sep = 'T' || sep = ' ' then
            let p := splitAtSign [] tl
            if isValidTimePart p.1 && isValidOffsetPart p.2 then some d else none
          else none

/-- Replace every non-overlapping occurrence of a non-empty pattern,
scanning left to right (fuel-indexed; the input length is enough fuel
since every step consumes at least one character). -/
def replaceAux (pattern repl : List Char) : Nat → List Char → List Char
  | 0, l => l
  | _ + 1, [] => []
  | fuel + 1, c :: rest =>
      if pattern ≠ [] ∧ pattern.isPrefixOf (c :: rest) then
        repl ++ replaceAux pattern repl fuel ((c :: rest).drop pattern.length)
      else c :: replaceAux pattern repl fuel rest

/-- Python `str.replace(old, new)` (replace every occurrence of a
non-empty pattern). -/
def pyReplace (s old new : String) : String :=
  String.mk (replaceAux old.data new.data s.data.length s.data)

/-- The canonical record type `ModelEntry` of
`src/model_registry/schemas.py`, after successful pydantic validation.
Field order mirrors the class declaration (it fixes the JSON key
order of `model_dump`). -/
structure ModelEntry where
  provider : String
  developer : String
  model_id : String
  release_date : Date
  status : String
  deriving DecidableEq, Repr

/-- The value supplied for the `release_date` field at construction:
a `datetime.date` object, a string, or an integer (pydantic v2 also
accepts int/float Unix timestamps for a `date` field; a float behaves
as its integral value and is represented by the integer case). -/
inductive DateInput where
  | fromDate (d : Date)
  | fromStr (s : String)
  | fromInt (n : Int)
  deriving DecidableEq, Repr

/-- The time-and-offset tail of a datetime string is exactly midnight:
`00:00:00`, optionally with an all-zero fractional part and an absent
or zero (`±00:00`) UTC offset. -/
def timeTailIsZero (l : List Char) : Bool :=
  let p := splitAtSign [] l
  (match p.1 with
   | '0' :: '0' :: ':' :: '0' :: '0' :: ':' :: '0' :: '0' :: rest =>
       (match rest with
        | [] => true
        | '.' :: frac => frac ≠ [] && frac.all (fun c => c = '0')
        | _ => false)
   | _ => false) &&
  (match p.2 with
   | [] => true
   | ['Z'] => true
   | ['z'] => true
   | [sign, '0', '0', ':', '0', '0'] => sign = '+' || sign = '-'
   | _ => false)

/-- Pydantic v2 lax validation of a string for a `date` field
(speedate): an ISO `YYYY-MM-DD` date, or an ISO datetime string whose
time component is exactly midnight (zero time, zero/absent offset), in
which case the date part is taken. -/
def pydanticDateFromStr (s : String) : Option Date :=
  match parseIsoDate s with
  | some d => some d
  | none =>
      match parseIsoDatetimeDate s with
      | none => none
      | some d =>
          match s.data.drop 10 with
          | [] => none
          | sep :: tl =>
              if (sep = 'T' || sep = ' ') && timeTailIsZero tl then some d else none

/-- Pydantic v2 lax validation of a number for a `date` field
(speedate): interpreted as Unix seconds when within `±2*10^10`, else
as milliseconds (which must be a whole number of seconds); the
timestamp must lie in speedate's supported range (years 1600-9999) and
fall exactly on midnight UTC. -/
def pydanticDateFromInt (n : Int) : Option Date :=
  let secs : Option Int :=
    if -20000000000 ≤ n ∧ n ≤ 20000000000 then some n
    else if n % 1000 = 0 then some (n / 1000) else none
  match secs with
  | none => none
  | some ts =>
      if ts < -11676096000 ∨ 253402300799 < ts then none
      else if ts % 86400 = 0 then
        let c := civilFromDays (Int.fdiv ts 86400)
        some ⟨c.1.toNat, c.2.1, c.2.2⟩
      else none

/-- Pydantic validation performed by `ModelEntry(**data)`
(`schemas.py` lines 4-9): `provider`, `developer`, `model_id` and
`release_date` are required; `model_id` has `min_length=1`;
`release_date` must be a date object, a lax-parseable date string
(ISO date or zero-time datetime) or an exact-midnight Unix timestamp;
`status` defaults to `"active"`.  No length constraint is declared for
`provider` or `developer`. -/
def mkModelEntry (provider developer model_id : Option String)
    (release_date : Option DateInput) (status : Option String) :
    Except PyErr ModelEntry :=
  match provider, developer, model_id, release_date with
  | some p, some dev, some mid, some rd =>
      if mid.length < 1 then .error .validationError
      else
        match rd with
        | .fromDate d => .ok ⟨p, dev, mid, d, status.getD "active"⟩
        | .fromStr s =>
            match pydanticDateFromStr s with
            | some d => .ok ⟨p, dev, mid, d, status.getD "active"⟩
            | none => .error .validationError
        | .fromInt n =>
            match pydanticDateFromInt n with
            | some d => .ok ⟨p, dev, mid, d, status.getD "active"⟩
            | none => .error .validationError
  | _, _, _, _ => .error .validationError

/-- Discard a caught Python exception (`try: ... except ...: pass`). -/
def exceptToOption {α : Type} : Except PyErr α → Option α
  | .ok a => some a
  | .error _ => none

/-- Python `datetime.date(y, m, d)`: a valid calendar date or a
`ValueError`. -/
def pydate (y m d : Nat) : Except PyErr Date :=
  if isValidDate y m d then .ok ⟨y, m, d⟩ else .error .valueError

/-- Match `\d{4}-\d{2}-\d{2}` at the head of a character list,
returning the year, month and day digit values. -/
def isoShapeAt : List Char → Option (Nat × Nat × Nat)
  | y1 :: y2 :: y3 :: y4 :: '-' :: m1 :: m2 :: '-' :: d1 :: d2 :: _ =>
      if isDigitChar y1 && isDigitChar y2 && isDigitChar y3 && isDigitChar y4 &&
         isDigitChar m1 && isDigitChar m2 && isDigitChar d1 && isDigitChar d2 then
        some (digitsToNat [y1, y2, y3, y4], digitsToNat [m1, m2], digitsToNat [d1, d2])
      else none
  | _ => none

/-- Leftmost match of `re.search(r"(\d{4}-\d{2}-\d{2})", s)`: scan the
positions left to right and return the first position where the shape
matches. -/
def findIsoSub : List Char → Option (Nat × Nat × Nat)
  | [] => none
  | c :: rest =>
      match isoShapeAt (c :: rest) with
      | some t => some t
      | none => findIsoSub rest

/-- Match `re.search(r"-(\d{n})$-style suffix patterns: the list must
end in a dash followed by exactly `n` digits; returns those digit
characters. -/
def dashSuffix (n : Nat) (l : List Char) : Option (List Char) :=
  let k := l.length
  if n + 1 ≤ k then
    let ds := l.drop (k - n)
    if l.get? (k - n - 1) = some '-' && ds.all isDigitChar then some ds else none
  else none

/-- A raw OpenAI `/v1/models` record: the fields the adapter reads
(`id`, `created`); `none` models an absent dict key. -/
structure OpenAIRaw where
  id : Option String
  created : Option PyVal
  deriving DecidableEq, Repr

/-- `OpenAIProvider.get_release_date` (`providers/openai.py` lines
54-107), transcribed pattern by pattern.  Patterns 1-3 run inside
`try` blocks catching only `ValueError`; patterns 4 and 5 catch
`ValueError` and `TypeError` — so `datetime.fromtimestamp`'s
`OSError`/`OverflowError` on an out-of-range epoch propagates
uncaught out of the function. -/
def openaiGetReleaseDate (r : OpenAIRaw) : Except PyErr Date :=
  let l := (r.id.getD "").data
  -- Pattern 1: YYYY-MM-DD anywhere in the id, then date.fromisoformat
  match attemptOpt [PyErr.valueError]
      ((findIsoSub l).map (fun t => pydate t.1 t.2.1 t.2.2)) with
  | .error e => .error e
  | .ok (some dt) => .ok dt
  | .ok none =>
  -- Pattern 2: -YYYYMMDD suffix
  match attemptOpt [PyErr.valueError]
      ((dashSuffix 8 l).map (fun ds =>
        pydate (digitsToNat (ds.take 4))
          (digitsToNat ((ds.drop 4).take 2)) (digitsToNat (ds.drop 6)))) with
  | .error e => .error e
  | .ok (some dt) => .ok dt
  | .ok none =>
  -- Pattern 3: -YYMMDD suffix read as 20YY
  match attemptOpt [PyErr.valueError]
      ((dashSuffix 6 l).map (fun ds =>
        pydate (digitsToNat ('2' :: '0' :: ds.take 2))
          (digitsToNat ((ds.drop 2).take 2)) (digitsToNat (ds.drop 4)))) with
  | .error e => .error e
  | .ok (some dt) => .ok dt
  | .ok none =>
  -- Pattern 4: -MMDD suffix, year from the created epoch field
  match attemptOpt [PyErr.valueError, PyErr.typeError]
      ((dashSuffix 4 l).bind (fun ds =>
        r.created.map (fun cv => do
          let base ← fromtimestampDate cv
          pydate base.year (digitsToNat (ds.take 2)) (digitsToNat (ds.drop 2))))) with
  | .error e => .error e
  | .ok (some dt) => .ok dt
  | .ok none =>
  -- Fallback to the created timestamp
  match attemptOpt [PyErr.valueError, PyErr.typeError]
      (r.created.map (fun cv => fromtimestampDate cv)) with
  | .error e => .error e
  | .ok (some dt) => .ok dt
  | .ok none =>
  -- Fallback to the far-future sentinel
  .ok sentinelDate

/-- Spec-side definition, following §4.2 Vendor B of the specification
word for word: six rules in strict precedence, where a rule whose
digits do not form a valid calendar date (or whose `created` field is
not a usable integer epoch) is treated as non-matching and precedence
falls through to the next rule. -/
def specVendorBRule1 (l : List Char) : Option Date :=
  (findIsoSub l).bind (fun t =>
    if isValidDate t.1 t.2.1 t.2.2 then some ⟨t.1, t.2.1, t.2.2⟩ else none)

/-- Spec rule (2): trailing `-YYYYMMDD` suffix, valid calendar date
required. -/
def specVendorBRule2 (l : List Char) : Option Date :=
  (dashSuffix 8 l).bind (fun ds =>
    let y := digitsToNat (ds.take 4)
    let m := digitsToNat ((ds.drop 4).take 2)
    let d := digitsToNat (ds.drop 6)
    if isValidDate y m d then some ⟨y, m, d⟩ else none)

/-- Spec rule (3): trailing `-YYMMDD` suffix interpreted as `20YY`. -/
def specVendorBRule3 (l : List Char) : Option Date :=
  (dashSuffix 6 l).bind (fun ds =>
    let y := 2000 + digitsToNat (ds.take 2)
    let m := digitsToNat ((ds.drop 2).take 2)
    let d := digitsToNat (ds.drop 4)
    if isValidDate y m d then some ⟨y, m, d⟩ else none)

/-- The year of an integer Unix epoch, when the epoch converts to an
in-range date (used by spec rule (4)). -/
def specEpochYear : PyVal → Option Nat
  | v => (exceptToOption (fromtimestampDate v)).map Date.year

/-- Spec rule (4): trailing `-MMDD` suffix with the year taken from the
`created` Unix-epoch field. -/
def specVendorBRule4 (l : List Char) (created : Option PyVal) : Option Date :=
  (dashSuffix 4 l).bind (fun ds =>
    created.bind (fun cv =>
      (specEpochYear cv).bind (fun y =>
        let m := digitsToNat (ds.take 2)
        let d := digitsToNat (ds.drop 2)
        if isValidDate y m d then some ⟨y, m, d⟩ else none)))

/-- Spec rule (5): the `created` epoch field directly as a full date. -/
def specVendorBRule5 (created : Option PyVal) : Option Date :=
  created.bind (fun cv => exceptToOption (fromtimestampDate cv))

/-- Spec §4.2 Vendor B: the six-rule cascade in strict precedence, with
rule (6) the sentinel. -/
def specVendorBReleaseDate (r : OpenAIRaw) : Date :=
  let l := (r.id.getD "").data
  (((((specVendorBRule1 l).orElse (fun _ => specVendorBRule2 l)).orElse
      (fun _ => specVendorBRule3 l)).orElse
      (fun _ => specVendorBRule4 l r.created)).orElse
      (fun _ => specVendorBRule5 r.created)).getD sentinelDate

/-- A raw Anthropic `/v1/models` record: the fields the adapter reads.
`created_at` keeps its dynamic Python type (`PyVal`). -/
structure AnthropicRaw where
  id : Option String
  created_at : Option PyVal
  deriving DecidableEq, Repr

/-- `AnthropicProvider.get_release_date` (`providers/anthropic.py`
lines 52-63): parse the ISO `created_at` timestamp, falling back to
the sentinel.  The `try` block only catches `ValueError` and
`TypeError`; calling `.replace` on a non-string truthy value raises an
uncaught `AttributeError`. -/
def anthropicGetReleaseDate (r : AnthropicRaw) : Except PyErr Date :=
  match r.created_at with
  | none => .ok sentinelDate
  | some v =>
      if pyTruthy v then
        match v with
        | .vstr s =>
            match parseIsoDatetimeDate (pyReplace s "Z" "+00:00") with
            | some d => .ok d
            | none => .ok sentinelDate
        | .vint _ => .error .attributeError
      else .ok sentinelDate

/-- A raw Gemini `models.list` record: the fields the adapter reads. -/
structure GeminiRaw where
  name : Option String
  deriving DecidableEq, Repr

/-- `GeminiProvider.get_release_date` (`providers/gemini.py` lines
98-108): trailing `-YYYYMMDD` in the `name`, else the sentinel. -/
def geminiGetReleaseDate (r : GeminiRaw) : Date :=
  let l := (r.name.getD "").data
  match (dashSuffix 8 l).bind (fun ds =>
      exceptToOption (pydate (digitsToNat (ds.take 4))
        (digitsToNat ((ds.drop 4).take 2)) (digitsToNat (ds.drop 6)))) with
  | some dt => dt
  | none => sentinelDate

/-- A raw OpenRouter `/v1/models` record: the fields the adapter
reads.  `created` keeps its dynamic Python type. -/
structure OpenRouterRaw where
  id : Option String
  name : Option String
  description : Option String
  created : Option PyVal
  deriving DecidableEq, Repr

/-- `OpenRouterProvider.get_release_date` (`providers/openrouter.py`
lines 85-99): the `created` Unix epoch as a date, else the sentinel;
the `try` block catches only `TypeError` and `ValueError`, so an
out-of-range epoch's `OSError`/`OverflowError` propagates. -/
def openrouterGetReleaseDate (r : OpenRouterRaw) : Except PyErr Date :=
  match attemptOpt [PyErr.typeError, PyErr.valueError]
      (r.created.map (fun cv => fromtimestampDate cv)) with
  | .error e => .error e
  | .ok (some dt) => .ok dt
  | .ok none => .ok sentinelDate

/-- Python `s.split('/')` has at least two parts iff `'/'` occurs in
`s`; the first part is the prefix before the first `'/'`. -/
def beforeFirstSlash : List Char → Option (List Char)
  | [] => none
  | c :: rest =>
      if c = '/' then some []
      else (beforeFirstSlash rest).map (fun p => c :: p)

/-- Python `s.startswith(p)`. -/
def startsWith (s p : String) : Bool := p.data.isPrefixOf s.data

/-- `OpenRouterProvider.get_developer` (`providers/openrouter.py` lines
52-83): prefix before the first `/` of the id, else a fixed lookup of
colon-prefixed labels in the lowercased display name, else
`"unknown"`. -/
def openrouterGetDeveloper (r : OpenRouterRaw) : String :=
  let mid := r.id.getD ""
  match beforeFirstSlash mid.data with
  | some p => String.mk p
  | none =>
      let nm := strLower (r.name.getD "")
      if startsWith nm "anthropic:" then "anthropic"
      else if startsWith nm "openai:" then "openai"
      else if startsWith nm "google:" then "google"
      else if startsWith nm "meta:" then "meta"
      else if startsWith nm "mistral:" then "mistral"
      else if startsWith nm "cohere:" then "cohere"
      else "unknown"

/-- Python `record["id"]`: the value, or a `KeyError`. -/
def getItemId (v : Option String) : Except PyErr String :=
  match v with
  | some s => .ok s
  | none => .error .keyError

/-- `OpenAIProvider.normalize` (`providers/openai.py` lines 109-116):
`ModelEntry` built from the extractors with `status="active"`;
`get_model_id` raises `KeyError` on a record without an `id`, and the
pydantic validation error of `ModelEntry(...)` propagates. -/
def openaiNormalize (r : OpenAIRaw) : Except PyErr ModelEntry := do
  let mid ← getItemId r.id
  let rd ← openaiGetReleaseDate r
  mkModelEntry (some "openai") (some "openai") (some mid)
    (some (.fromDate rd)) (some "active")

/-- `GeminiProvider.normalize` (`providers/gemini.py` lines 110-117):
`get_model_id` is `record.get("name", "")`, so a missing name yields
the empty id and the pydantic `min_length` error propagates. -/
def geminiNormalize (r : GeminiRaw) : Except PyErr ModelEntry :=
  mkModelEntry (some "gemini") (some "google") (some (r.name.getD ""))
    (some (.fromDate (geminiGetReleaseDate r))) (some "active")

/-- `AnthropicProvider.normalize` (`providers/anthropic.py` lines
65-72). -/
def anthropicNormalize (r : AnthropicRaw) : Except PyErr ModelEntry := do
  let mid ← getItemId r.id
  let rd ← anthropicGetReleaseDate r
  mkModelEntry (some "anthropic") (some "anthropic") (some mid)
    (some (.fromDate rd)) (some "active")

/-- `OpenRouterProvider.normalize` (`providers/openrouter.py` lines
101-121): status `"deprecated"` when the word appears in the
lowercased description or name, else `"active"`. -/
def openrouterNormalize (r : OpenRouterRaw) : Except PyErr ModelEntry := do
  let status :=
    if containsSub (strLower (r.description.getD "")) "deprecated" ||
       containsSub (strLower (r.name.getD "")) "deprecated" then
      "deprecated"
    else "active"
  let mid ← getItemId r.id
  let rd ← openrouterGetReleaseDate r
  mkModelEntry (some "openrouter") (some (openrouterGetDeveloper r)) (some mid)
    (some (.fromDate rd)) (some status)

/-- `OpenAIProvider.filter_public` (`providers/openai.py` lines 41-46):
drop records whose id contains `"ft:"` or `"ft-"`. -/
def openaiFilterPublic (raw : List OpenAIRaw) : List OpenAIRaw :=
  raw.filter (fun m =>
    !(containsSub (m.id.getD "") "ft:") && !(containsSub (m.id.getD "") "ft-"))

/-- `Provider.public_models` (`providers/base.py` lines 113-137): the
fetch/filter stage runs inside a `try` whose handler returns the models
accumulated so far (the empty list when fetch or filter fail), and each
record's normalization runs inside its own `try` that logs and skips
the record.  `fetchFilter` stands for the composed
`filter_public(fetch_models())` outcome and `normF` for
`self.normalize`. -/
def basePublicModels {Raw : Type} (fetchFilter : Except PyErr (List Raw))
    (normF : Raw → Except PyErr ModelEntry) : List ModelEntry :=
  match fetchFilter with
  | .error _ => []
  | .ok pub =>
      pub.foldl (fun acc rec =>
        match normF rec with
        | .ok m => acc ++ [m]
        | .error _ => acc) []

/-- `OpenAIProvider.public_models` (`providers/openai.py` lines
118-121): no exception handling — fetch failures and per-record
normalization failures both propagate. -/
def openaiPublicModels (fetchRes : Except PyErr (List OpenAIRaw)) :
    Except PyErr (List ModelEntry) := do
  let raw ← fetchRes
  (openaiFilterPublic raw).mapM openaiNormalize

/-- `GeminiProvider.public_models` (`providers/gemini.py` lines
119-122): no exception handling — failures propagate. -/
def geminiPublicModels (fetchRes : Except PyErr (List GeminiRaw)) :
    Except PyErr (List ModelEntry) := do
  let raw ← fetchRes
  raw.mapM geminiNormalize

/-- `AnthropicProvider.public_models` (`providers/anthropic.py` lines
74-77): no exception handling — failures propagate. -/
def anthropicPublicModels (fetchRes : Except PyErr (List AnthropicRaw)) :
    Except PyErr (List ModelEntry) := do
  let raw ← fetchRes
  raw.mapM anthropicNormalize

/-- `OpenRouterProvider.public_models` (`providers/openrouter.py` lines
123-143): the whole pipeline runs inside a `try` returning `[]` on
failure, and each record's normalization has its own `try` that skips
the record. -/
def openrouterPublicModels (fetchRes : Except PyErr (List OpenRouterRaw)) :
    List ModelEntry :=
  match fetchRes with
  | .error _ => []
  | .ok raw =>
      raw.foldl (fun acc rec =>
        match openrouterNormalize rec with
        | .ok m => acc ++ [m]
        | .error _ => acc) []

/-- One scripted response of the Gemini `models.list` endpoint: a page
with its optional continuation token, or a raised request failure. -/
inductive GeminiResp (α : Type) where
  | page (models : List α) (nextPageToken : Option String)
  | fail (e : PyErr)
  deriving DecidableEq, Repr

/-- The pagination loop of `GeminiProvider.fetch_models`
(`providers/gemini.py` lines 33-85), one scripted response per
iteration: extend the accumulator with each page's models and continue
while a `nextPageToken` is supplied; on a raised failure, re-raise when
no models have been gathered yet (`if not all_models: raise`), else
break and return the partial result.  `none` means the response script
ran out while the loop still wanted a page. -/
def geminiFetchAux {α : Type} : List (GeminiResp α) → List α →
    Option (Except PyErr (List α))
  | [], _ => none
  | .page ms tok :: rest, acc =>
      let acc2 := acc ++ ms
      match tok with
      | none => some (.ok acc2)
      | some _ => geminiFetchAux rest acc2
  | .fail e :: _, acc =>
      if acc.isEmpty then some (.error e) else some (.ok acc)

/-- `GeminiProvider.fetch_models` run against a scripted response
sequence. -/
def geminiFetchModels {α : Type} (script : List (GeminiResp α)) :
    Option (Except PyErr (List α)) :=
  geminiFetchAux script []

/-- The `retry` decorator (`providers/base.py` lines 15-44) run against
a scripted outcome per attempt: `outcomes i` is what the wrapped
function does on attempt `i` (0-based).  Returns the final result
together with the list of back-off sleeps performed;
`Except.error none` models the `raise None` of `attempts = 0`. -/
def retryAux {E A : Type} (outcomes : Nat → Except E A) (backoff : Nat) :
    Nat → Nat → Nat → List Nat → Except (Option E) A × List Nat
  | _, 0, _, sleeps => (.error none, sleeps)
  | idx, remaining + 1, curDelay, sleeps =>
      match outcomes idx with
      | .ok a => (.ok a, sleeps)
      | .error e =>
          if remaining = 0 then (.error (some e), sleeps)
          else retryAux outcomes backoff (idx + 1) remaining (curDelay * backoff)
            (sleeps ++ [curDelay])

/-- The `retry` decorator applied with `attempts`, initial `delay` and
`backoff` to a function whose per-attempt outcomes are scripted. -/
def retryRun {E A : Type} (outcomes : Nat → Except E A)
    (attempts delay backoff : Nat) : Except (Option E) A × List Nat :=
  retryAux outcomes backoff 0 attempts delay []

/-- The exponential back-off sleep schedule after `k` failed attempts:
`[delay, delay*backoff, ..., delay*backoff^(k-1)]`. -/
def backoffSleeps (delay backoff k : Nat) : List Nat :=
  (List.range k).map (fun i => delay * backoff ^ i)

/-- The identity key `(model.developer, model.model_id, model.provider)`
used by `main` (`main.py` lines 100-111). -/
def identityKey (m : ModelEntry) : String × String × String :=
  (m.developer, m.model_id, m.provider)

/-- A Python dict keyed by identity triples: an insertion-ordered
association list with unique keys maintained by the operations below. -/
abbrev CombinedMap := List ((String × String × String) × ModelEntry)

/-- Python `d[k]` lookup (first matching binding; keys are unique by
construction). -/
def lookupKey : CombinedMap → (String × String × String) → Option ModelEntry
  | [], _ => none
  | (k, v) :: rest, q => if k = q then some v else lookupKey rest q

/-- Python `k in d`. -/
def containsKey (mp : CombinedMap) (q : String × String × String) : Bool :=
  (lookupKey mp q).isSome

/-- Python `d[k] = v`: replace the value in place when the key exists
(keeping its position), else append the new binding. -/
def assignKey : CombinedMap → (String × String × String) → ModelEntry → CombinedMap
  | [], q, v => [(q, v)]
  | (k, w) :: rest, q, v =>
      if k = q then (k, v) :: rest else (k, w) :: assignKey rest q v

/-- `main.py` lines 100-102: seed the combined map with the existing
models, in order. -/
def seedMap (existing : List ModelEntry) : CombinedMap :=
  existing.foldl (fun mp m => assignKey mp (identityKey m) m) []

/-- `main.py` lines 104-111: one fetched model is inserted only if its
identity key is absent; an existing entry is never overwritten. -/
def mergeStep (mp : CombinedMap) (m : ModelEntry) : CombinedMap :=
  if containsKey mp (identityKey m) then mp else mp ++ [(identityKey m, m)]

/-- The combined map after merging all fetched models into the seeded
existing map. -/
def mergedMap (existing fetched : List ModelEntry) : CombinedMap :=
  fetched.foldl mergeStep (seedMap existing)

/-- The sort key of `main.py` line 119:
`(m.model_id.lower(), m.developer.lower(), m.provider.lower())`. -/
def codeSortKey (m : ModelEntry) : String × String × String :=
  (strLower m.model_id, strLower m.developer, strLower m.provider)

/-- Python string `<` on character lists: lexicographic comparison by
code point. -/
def charListLt : List Char → List Char → Bool
  | [], [] => false
  | [], _ :: _ => true
  | _ :: _, [] => false
  | a :: as, b :: bs =>
      if a.toNat < b.toNat then true
      else if b.toNat < a.toNat then false
      else charListLt as bs

/-- Python string `<` (lexicographic by Unicode code point). -/
def strLt (a b : String) : Bool := charListLt a.data b.data

/-- Python tuple `<=` on string triples (lexicographic). -/
def tripleLe (a b : String × String × String) : Bool :=
  strLt a.1 b.1 ||
    (a.1 == b.1 &&
      (strLt a.2.1 b.2.1 ||
        (a.2.1 == b.2.1 && (strLt a.2.2 b.2.2 || a.2.2 == b.2.2))))

/-- The comparison `list.sort` effectively applies with the key of
`main.py` line 119. -/
def codeLe (a b : ModelEntry) : Bool := tripleLe (codeSortKey a) (codeSortKey b)

/-- The sort key the specification states:
`(developer lowercased, model_id lowercased, provider lowercased)`. -/
def specSortKey (m : ModelEntry) : String × String × String :=
  (strLower m.developer, strLower m.model_id, strLower m.provider)

/-- The specification's claimed comparison. -/
def specLe (a b : ModelEntry) : Bool := tripleLe (specSortKey a) (specSortKey b)

/-- Stable insertion of one element into a list sorted by `le`: placed
before the first element it compares `le` to, so that an element keeps
its place ahead of equal-keyed elements that followed it. -/
def insortBy (le : ModelEntry → ModelEntry → Bool) (a : ModelEntry) :
    List ModelEntry → List ModelEntry
  | [] => [a]
  | b :: rest => if le a b then a :: b :: rest
                 else b :: insortBy le a rest

/-- Stable sort by `le` (insertion sort; Python `list.sort` is a stable
sort by the same key comparison). -/
def sortBy (le : ModelEntry → ModelEntry → Bool) : List ModelEntry → List ModelEntry
  | [] => []
  | a :: rest => insortBy le a (sortBy le rest)

/-- `main.py` lines 118-119: the final model list is the combined map's
values sorted by `codeLe`. -/
def finalModelList (existing fetched : List ModelEntry) : List ModelEntry :=
  sortBy codeLe ((mergedMap existing fetched).map Prod.snd)

/-- Zero-padded decimal rendering of width `w`. -/
def padNum (w n : Nat) : String :=
  let s := toString n
  String.mk (List.replicate (w - s.length) '0') ++ s

/-- ISO `YYYY-MM-DD` rendering of a date (pydantic
`model_dump(mode='json')` on a `date` field). -/
def dateToIso (d : Date) : String :=
  padNum 4 d.year ++ "-" ++ padNum 2 d.month ++ "-" ++ padNum 2 d.day

/-- JSON string escaping as `json.dumps` performs it on the characters
that can occur here. -/
def jsonEscapeChar (c : Char) : String :=
  if c = '\\' then "\\\\"
  else if c = '"' then "\\\""
  else if c = '\n' then "\\n"
  else if c = '\r' then "\\r"
  else if c = '\t' then "\\t"
  else String.mk [c]

/-- A JSON string literal. -/
def jsonStr (s : String) : String :=
  "\"" ++ String.join (s.data.map jsonEscapeChar) ++ "\""

/-- One serialized entry of `json.dumps([...], indent=2)`: the dict of
`model_dump(mode='json')` with keys in field-declaration order,
indented two levels. -/
def entryJson (m : ModelEntry) : String :=
  "  \x7b\n" ++
  "    \"provider\": " ++ jsonStr m.provider ++ ",\n" ++
  "    \"developer\": " ++ jsonStr m.developer ++ ",\n" ++
  "    \"model_id\": " ++ jsonStr m.model_id ++ ",\n" ++
  "    \"release_date\": " ++ jsonStr (dateToIso m.release_date) ++ ",\n" ++
  "    \"status\": " ++ jsonStr m.status ++ "\n" ++
  "  \x7d"

/-- Join strings with a separator (`",\n".join(...)`). -/
def joinWith (sep : String) : List String → String
  | [] => ""
  | [s] => s
  | s :: rest => s ++ sep ++ joinWith sep rest

/-- `json.dumps(models_dict, indent=2)` on the list of dumped entries
(`main.py` lines 126-127 and `save_models`). -/
def serializeModels (models : List ModelEntry) : String :=
  match models with
  | [] => "[]"
  | _ => "[\n" ++ joinWith ",\n" (models.map entryJson) ++ "\n]"

/-- Line-ending normalization of `main.py` lines 135-136
(`.replace('\r\n', '\n')`). -/
def normalizeCrlf (s : String) : String := pyReplace s "\r\n" "\n"

/-- The externally visible outcome of a run: which summary line is
printed, with the final model count. -/
inductive RunOutcome where
  | noChange (n : Nat)
  | updated (n : Nat)
  deriving DecidableEq, Repr

/-- `main.py` lines 133-147: serialize the final list, compare after
line-ending normalization against the previous raw file content, and
take the no-write path only when the strings agree and the file
existed. -/
def mainDecision (existing fetched : List ModelEntry) (original : String)
    (fileExists : Bool) : RunOutcome :=
  if normalizeCrlf original =
      normalizeCrlf (serializeModels (finalModelList existing fetched)) && fileExists then
    .noChange (finalModelList existing fetched).length
  else
    .updated (finalModelList existing fetched).length

/-- `save_models` (`main.py` lines 51-59): the write attempt's outcome
is consumed by a catch-all handler that logs; the function never
raises.  Returns whether the save succeeded. -/
def saveModels (writeResult : Except String Unit) : Bool :=
  match writeResult with
  | .ok _ => true
  | .error _ => false

/-- What the process does after the content comparison (`main.py` lines
138-147): the summary line printed, the exit status, and whether the
file write succeeded (`none` when no write was attempted). -/
def mainFinish (existing fetched : List ModelEntry) (original : String)
    (fileExists : Bool) (writeResult : Except String Unit) :
    String × Nat × Option Bool :=
  match mainDecision existing fetched original fileExists with
  | .noChange n => ("No content changes. (" ++ toString n ++ " models)", 0, none)
  | .updated n =>
      let ok := saveModels writeResult
      ("updated with " ++ toString n ++ " models.", 0, some ok)

/-- A persisted registry record used in concrete scenarios
(`developer="dev_a"`, `model_id="m1"`, `provider="p1"`). -/
def recPersisted : ModelEntry := ⟨"p1", "dev_a", "m1", ⟨2023, 1, 1⟩, "active"⟩

/-- A freshly fetched record with the same identity triple as
`recPersisted` but a different `release_date`. -/
def recRefetched : ModelEntry := ⟨"p1", "dev_a", "m1", ⟨2024, 5, 5⟩, "active"⟩

/-- An entry whose developer is `"Zeta"` and whose model id sorts
first. -/
def recZeta : ModelEntry := ⟨"p1", "Zeta", "a1", ⟨2023, 1, 1⟩, "active"⟩

/-- An entry whose developer is `"alpha"` and whose model id sorts
last. -/
def recAlpha : ModelEntry := ⟨"p1", "alpha", "b1", ⟨2023, 1, 1⟩, "active"⟩

end ModelRegistry

namespace ModelRegistry

/-- The Anthropic record's `created_at` field has the runtime type the
adapter expects: a string, or absent. -/
def anthCreatedIsStr (r : AnthropicRaw) : Bool :=
  match r.created_at with
  | some (.vint _) => false
  | _ => true

/-- No date information is extractable from an OpenAI record: none of
the five pattern sources match. -/
def openaiNoDateInfo (r : OpenAIRaw) : Bool :=
  let l := (r.id.getD "").data
  (findIsoSub l).isNone && (dashSuffix 8 l).isNone && (dashSuffix 6 l).isNone &&
    (dashSuffix 4 l).isNone && r.created.isNone

/-- No date information is extractable from a Gemini record. -/
def geminiNoDateInfo (r : GeminiRaw) : Bool :=
  (dashSuffix 8 (r.name.getD "").data).isNone

/-! ### Helper lemmas -/

/-- Catching the `ValueError` of `date(y, m, d)` leaves a date exactly
on valid calendar input. -/
theorem exceptToOption_pydate (y m d : Nat) :
    exceptToOption (pydate y m d) =
      if isValidDate y m d then some ⟨y, m, d⟩ else none := by
  unfold pydate
  by_cases h : isValidDate y m d = true <;> simp [h, exceptToOption]

/-- `exceptToOption` turns an exception-monad bind into an option
bind. -/
theorem exceptToOption_bind {α β : Type} (x : Except PyErr α)
    (f : α → Except PyErr β) :
    exceptToOption (x >>= f) = (exceptToOption x).bind (fun a => exceptToOption (f a)) := by
  cases x <;> rfl

/-- A binding found in a map is still found after appending further
bindings (lookup returns the first match). -/
theorem lookupKey_append (mp l : CombinedMap)
    (k : String × String × String) (v : ModelEntry)
    (h : lookupKey mp k = some v) :
    lookupKey (mp ++ l) k = some v := by
  induction mp with
  | nil => simp [lookupKey] at h
  | cons hd tl ih =>
      unfold lookupKey at h ⊢
      split at h
      · simp_all
      · simp_all [ih h]

/-- A binding found in the map is found unchanged after one merge
step. -/
theorem lookupKey_mergeStep (mp : CombinedMap) (m : ModelEntry)
    (k : String × String × String) (v : ModelEntry)
    (h : lookupKey mp k = some v) :
    lookupKey (mergeStep mp m) k = some v := by
  unfold mergeStep
  split
  · exact h
  · exact lookupKey_append mp [(identityKey m, m)] k v h

/-- A binding found in the map is found unchanged after merging any
list of fetched models. -/
theorem lookupKey_foldl_mergeStep (fetched : List ModelEntry)
    (mp : CombinedMap) (k : String × String × String) (v : ModelEntry)
    (h : lookupKey mp k = some v) :
    lookupKey (fetched.foldl mergeStep mp) k = some v := by
  induction fetched generalizing mp with
  | nil => exact h
  | cons f rest ih => exact ih (mergeStep mp f) (lookupKey_mergeStep mp f k v h)

/-- A value found by lookup is among the map's values. -/
theorem lookupKey_mem_values (mp : CombinedMap)
    (k : String × String × String) (v : ModelEntry)
    (h : lookupKey mp k = some v) : v ∈ mp.map Prod.snd := by
  induction mp with
  | nil => simp [lookupKey] at h
  | cons hd tl ih =>
      unfold lookupKey at h
      split at h
      · simp_all
      · simp [ih h]

/-- Membership is preserved by stable insertion. -/
theorem mem_insortBy (le : ModelEntry → ModelEntry → Bool)
    (a x : ModelEntry) (l : List ModelEntry) :
    x ∈ insortBy le a l ↔ x = a ∨ x ∈ l := by
  induction l with
  | nil => simp [insortBy]
  | cons b rest ih =>
      unfold insortBy
      split
      · simp [List.mem_cons]
      · simp [List.mem_cons, ih]
        tauto

/-- Sorting preserves membership. -/
theorem mem_sortBy (le : ModelEntry → ModelEntry → Bool)
    (x : ModelEntry) (l : List ModelEntry) :
    x ∈ sortBy le l ↔ x ∈ l := by
  induction l with
  | nil => simp [sortBy]
  | cons b rest ih => simp [sortBy, mem_insortBy, ih, List.mem_cons]

/-- Character-list comparison is trichotomous. -/
theorem charListLt_trichotomy (as bs : List Char) :
    charListLt as bs = true ∨ as = bs ∨ charListLt bs as = true := by
  induction as generalizing bs with
  | nil => cases bs <;> simp [charListLt]
  | cons a as ih =>
      cases bs with
      | nil => simp [charListLt]
      | cons b bs =>
          rcases Nat.lt_trichotomy a.toNat b.toNat with h | h | h
          · left; simp [charListLt, h]
          · have hab : a = b := by
              have h2 := congrArg Char.ofNat h
              rwa [Char.ofNat_toNat, Char.ofNat_toNat] at h2
            subst hab
            rcases ih bs with h2 | h2 | h2
            · left; simp [charListLt, h2]
            · right; left; simp [h2]
            · right; right; simp [charListLt, h2]
          · right; right; simp [charListLt, h]

/-- String comparison is trichotomous. -/
theorem strLt_trichotomy (a b : String) :
    strLt a b = true ∨ a = b ∨ strLt b a = true := by
  rcases charListLt_trichotomy a.data b.data with h | h | h
  · exact Or.inl h
  · refine Or.inr (Or.inl ?_)
    cases a; cases b
    exact congrArg String.mk h
  · exact Or.inr (Or.inr h)

/-- Python string-tuple comparison is total. -/
theorem tripleLe_total (a b : String × String × String) :
    tripleLe a b = true ∨ tripleLe b a = true := by
  unfold tripleLe
  rcases strLt_trichotomy a.1 b.1 with h | h | h
  · left; simp [h]
  · rcases strLt_trichotomy a.2.1 b.2.1 with h2 | h2 | h2
    · left; simp [h, h2]
    · rcases strLt_trichotomy a.2.2 b.2.2 with h3 | h3 | h3
      · left; simp [h, h2, h3]
      · left; simp [h, h2, h3]
      · right; simp [h.symm, h2.symm, h3]
    · right; simp [h.symm, h2]
  · right; simp [h]

/-- The comparison of `main.py`'s sort key is total. -/
theorem codeLe_total (a b : ModelEntry) :
    codeLe a b = true ∨ codeLe b a = true :=
  tripleLe_total (codeSortKey a) (codeSortKey b)

/-- Inserting below a dominated head keeps the list intact. -/
theorem insortBy_cons_of_le (le : ModelEntry → ModelEntry → Bool)
    (a b : ModelEntry) (l : List ModelEntry) (h : le a b = true) :
    insortBy le a (b :: l) = a :: b :: l := by
  unfold insortBy
  simp [h]

/-- Stable insertion preserves adjacent-pair sortedness, given a total
comparison. -/
theorem chain'_insortBy (le : ModelEntry → ModelEntry → Bool)
    (htot : ∀ x y, le x y = true ∨ le y x = true) (a : ModelEntry)
    (l : List ModelEntry) (h : List.Chain' (fun x y => le x y = true) l) :
    List.Chain' (fun x y => le x y = true) (insortBy le a l) := by
  induction l with
  | nil => simp [insortBy]
  | cons b rest ih =>
      unfold insortBy
      split
      · exact List.Chain'.cons (by assumption) h
      · have hba : le b a = true := by
          rcases htot a b with hab | hba
          · simp_all
          · exact hba
        have hrest := (List.chain'_cons'.mp h).2
        have hins := ih hrest
        refine List.chain'_cons'.mpr ⟨?_, hins⟩
        intro y hy
        cases rest with
        | nil => simp [insortBy] at hy; subst hy; exact hba
        | cons c rest2 =>
            unfold insortBy at hy
            split at hy
            · simp at hy; subst hy; exact hba
            · simp at hy; subst hy
              exact (List.chain'_cons.mp h).1

/-- The output of the stable sort is sorted (adjacent pairs), given a
total comparison. -/
theorem chain'_sortBy (le : ModelEntry → ModelEntry → Bool)
    (htot : ∀ x y, le x y = true ∨ le y x = true) (l : List ModelEntry) :
    List.Chain' (fun x y => le x y = true) (sortBy le l) := by
  induction l with
  | nil => simp [sortBy]
  | cons a rest ih => exact chain'_insortBy le htot a (sortBy le rest) ih

/-- Sorting an already sorted list leaves it unchanged. -/
theorem sortBy_eq_self (le : ModelEntry → ModelEntry → Bool)
    (l : List ModelEntry) (h : List.Chain' (fun x y => le x y = true) l) :
    sortBy le l = l := by
  induction l with
  | nil => rfl
  | cons a rest ih =>
      have hrest := (List.chain'_cons'.mp h).2
      unfold sortBy
      rw [ih hrest]
      cases rest with
      | nil => rfl
      | cons b rest2 =>
          exact insortBy_cons_of_le le a b rest2 ((List.chain'_cons.mp h).1)

/-- `containsKey` on a cons cell. -/
theorem containsKey_cons (hd : (String × String × String) × ModelEntry)
    (tl : CombinedMap) (q : String × String × String) :
    containsKey (hd :: tl) q = (decide (hd.1 = q) || containsKey tl q) := by
  obtain ⟨k, v⟩ := hd
  by_cases h : k = q <;> simp [containsKey, lookupKey, h]

/-- Assigning a fresh key appends the binding at the end (Python dict
insertion order). -/
theorem assignKey_of_fresh (mp : CombinedMap) (k : String × String × String)
    (v : ModelEntry) (h : containsKey mp k = false) :
    assignKey mp k v = mp ++ [(k, v)] := by
  induction mp with
  | nil => rfl
  | cons hd tl ih =>
      rw [containsKey_cons] at h
      simp only [Bool.or_eq_false_iff, decide_eq_false_iff_not] at h
      unfold assignKey
      simp [h.1, ih h.2]

/-- `containsKey` across an append. -/
theorem containsKey_append (mp l : CombinedMap) (q : String × String × String) :
    containsKey (mp ++ l) q = (containsKey mp q || containsKey l q) := by
  induction mp with
  | nil => simp [containsKey, lookupKey]
  | cons hd tl ih =>
      rw [List.cons_append, containsKey_cons, containsKey_cons, ih]
      by_cases h : hd.1 = q <;> simp [h]

/-- Seeding a map with records of pairwise distinct identity keys, none
already present, appends their bindings in order. -/
theorem seed_foldl_of_fresh (l : List ModelEntry) (acc : CombinedMap)
    (hfresh : ∀ m ∈ l, containsKey acc (identityKey m) = false)
    (hdist : l.Pairwise (fun x y => identityKey x ≠ identityKey y)) :
    l.foldl (fun mp m => assignKey mp (identityKey m) m) acc =
      acc ++ l.map (fun m => (identityKey m, m)) := by
  induction l generalizing acc with
  | nil => simp
  | cons a rest ih =>
      have ha : containsKey acc (identityKey a) = false :=
        hfresh a (List.mem_cons_self a rest)
      have hstep : assignKey acc (identityKey a) a = acc ++ [(identityKey a, a)] :=
        assignKey_of_fresh acc (identityKey a) a ha
      have hdast := List.pairwise_cons.mp hdist
      have hres : ∀ m ∈ rest,
          containsKey (acc ++ [(identityKey a, a)]) (identityKey m) = false := by
        intro m hm
        rw [containsKey_append]
        have h1 : containsKey acc (identityKey m) = false :=
          hfresh m (List.mem_cons_of_mem a hm)
        have h2 : identityKey a ≠ identityKey m := hdast.1 m hm
        have h3 : containsKey [(identityKey a, a)] (identityKey m) = false := by
          simp [containsKey, lookupKey, h2]
        simp [containsKey_append, h1, h3]
      simp only [List.foldl_cons, hstep]
      rw [ih (acc ++ [(identityKey a, a)]) hres hdast.2]
      simp

/-- With pairwise distinct identity keys, the seeded map is exactly the
existing records' bindings in order. -/
theorem seedMap_of_distinct (existing : List ModelEntry)
    (hdist : existing.Pairwise (fun x y => identityKey x ≠ identityKey y)) :
    seedMap existing = existing.map (fun m => (identityKey m, m)) := by
  unfold seedMap
  have := seed_foldl_of_fresh existing [] (by
    intro m _
    rfl) hdist
  simpa using this

/-- Merging fetched records whose identity keys are all already present
leaves the map unchanged. -/
theorem mergedMap_of_all_present (existing fetched : List ModelEntry)
    (h : ∀ m ∈ fetched, containsKey (seedMap existing) (identityKey m) = true) :
    mergedMap existing fetched = seedMap existing := by
  unfold mergedMap
  induction fetched with
  | nil => rfl
  | cons a rest ih =>
      have ha := h a (List.mem_cons_self a rest)
      simp only [List.foldl_cons]
      have hstep : mergeStep (seedMap existing) a = seedMap existing := by
        unfold mergeStep
        simp [ha]
      rw [hstep]
      exact ih (fun m hm => h m (List.mem_cons_of_mem a hm))

/-- The per-record accumulation loop of the isolating `public_models`
implementations collects exactly the records whose normalization
succeeds, in order. -/
theorem foldl_collect_eq_filterMap {Raw : Type}
    (normF : Raw → Except PyErr ModelEntry) (l : List Raw)
    (acc : List ModelEntry) :
    l.foldl (fun acc rec =>
        match normF rec with
        | .ok m => acc ++ [m]
        | .error _ => acc) acc =
      acc ++ l.filterMap (fun r => exceptToOption (normF r)) := by
  induction l generalizing acc with
  | nil => simp
  | cons a rest ih =>
      simp only [List.foldl_cons, List.filterMap_cons]
      cases hna : normF a with
      | ok m => simp [hna, ih, exceptToOption]
      | error e => simp [hna, ih, exceptToOption]

/-- Folding the base-10 accumulator from a seed scales the seed by the
length of the remaining digits. -/
theorem digitsToNat_foldl_seed (l : List Char) (s : Nat) :
    l.foldl (fun acc c => acc * 10 + (c.toNat - '0'.toNat)) s =
      s * 10 ^ l.length + digitsToNat l := by
  induction l generalizing s with
  | nil => simp [digitsToNat]
  | cons c rest ih =>
      simp only [List.foldl_cons, List.length_cons]
      rw [ih (s * 10 + (c.toNat - '0'.toNat))]
      have hcons : digitsToNat (c :: rest) =
          (c.toNat - '0'.toNat) * 10 ^ rest.length + digitsToNat rest := by
        unfold digitsToNat
        simp only [List.foldl_cons]
        rw [ih (0 * 10 + (c.toNat - '0'.toNat))]
        simp [digitsToNat]
      rw [hcons]
      ring

/-- Prefixing the digit characters `2`, `0` to a two-digit group adds
`2000` (the `int(f"20{ys}")` of pattern 3). -/
theorem digitsToNat_two_zero (l : List Char) (h : l.length = 2) :
    digitsToNat ('2' :: '0' :: l) = 2000 + digitsToNat l := by
  unfold digitsToNat
  simp only [List.foldl_cons]
  rw [digitsToNat_foldl_seed l ((0 * 10 + ('2'.toNat - '0'.toNat)) * 10 + ('0'.toNat - '0'.toNat))]
  norm_num [h]
  rfl

/-- A matched dash suffix has exactly the requested number of digit
characters. -/
theorem dashSuffix_length (n : Nat) (l ds : List Char)
    (h : dashSuffix n l = some ds) : ds.length = n := by
  unfold dashSuffix at h
  by_cases hk : n + 1 ≤ l.length
  · simp only [hk, if_true] at h
    split at h
    · injection h with h2
      subst h2
      simp [List.length_drop]
      omega
    · exact absurd h (by simp)
  · simp [hk] at h

/-- A `try date(y, m, d) except ValueError: pass` block yields the
date exactly on valid calendar input. -/
theorem attemptOpt_some_pydate (caught : List PyErr)
    (h : PyErr.valueError ∈ caught) (y m d : Nat) :
    attemptOpt caught (some (pydate y m d)) =
      .ok (if isValidDate y m d then some ⟨y, m, d⟩ else none) := by
  unfold pydate
  by_cases hv : isValidDate y m d = true <;> simp [hv, attemptOpt, h]

/-- An error of the civil-date step is a `ValueError` or an `OSError`. -/
theorem fromGmtime_error_cases (c : Int × Nat × Nat) (e : PyErr)
    (h : fromGmtime c = .error e) : e = .valueError ∨ e = .osError := by
  unfold fromGmtime at h
  split at h
  · injection h with h2
    exact Or.inr h2.symm
  · split at h
    · exact absurd h (by simp)
    · injection h with h2
      exact Or.inl h2.symm

/-- An error of `datetime.fromtimestamp` is one of the four modelled
exception classes. -/
theorem fromtimestampDate_error_cases (v : PyVal) (e : PyErr)
    (h : fromtimestampDate v = .error e) :
    e = .valueError ∨ e = .typeError ∨ e = .osError ∨ e = .overflowError := by
  cases v with
  | vstr s =>
      have h2 : PyErr.typeError = e := by injection h
      simp [← h2]
  | vint n =>
      have h2 : (if n < -(2 : Int) ^ 63 ∨ (2 : Int) ^ 63 - 1 < n then
          (Except.error PyErr.overflowError : Except PyErr Date)
          else fromGmtime (civilFromDays (Int.fdiv n 86400))) = .error e := h
      by_cases hb : n < -(2 : Int) ^ 63 ∨ (2 : Int) ^ 63 - 1 < n
      · rw [if_pos hb] at h2
        injection h2 with h3
        simp [← h3]
      · rw [if_neg hb] at h2
        rcases fromGmtime_error_cases _ _ h2 with h3 | h3 <;> simp [h3]

/-- Under an epoch-safe `created` field, a failing
`datetime.fromtimestamp` raises only a caught class. -/
theorem fromtimestampDate_safe_caught (cv : PyVal) (e : PyErr)
    (hs : epochSafe (some cv) = true) (hf : fromtimestampDate cv = .error e) :
    e = .valueError ∨ e = .typeError := by
  have hcases := fromtimestampDate_error_cases cv e hf
  simp only [epochSafe] at hs
  rw [hf] at hs
  rcases hcases with h | h | h | h
  · exact Or.inl h
  · exact Or.inr h
  · subst h; simp at hs
  · subst h; simp at hs

/-- Pattern 1 of the code equals spec rule (1). -/
theorem attemptP1 (l : List Char) :
    attemptOpt [PyErr.valueError]
        ((findIsoSub l).map (fun t => pydate t.1 t.2.1 t.2.2)) =
      .ok (specVendorBRule1 l) := by
  unfold specVendorBRule1
  cases findIsoSub l with
  | none => rfl
  | some t =>
      rw [show (some t).map (fun t => pydate t.1 t.2.1 t.2.2) =
          some (pydate t.1 t.2.1 t.2.2) from rfl]
      rw [attemptOpt_some_pydate _ (by simp) _ _ _]
      simp

/-- Pattern 2 of the code equals spec rule (2). -/
theorem attemptP2 (l : List Char) :
    attemptOpt [PyErr.valueError]
        ((dashSuffix 8 l).map (fun ds =>
          pydate (digitsToNat (ds.take 4))
            (digitsToNat ((ds.drop 4).take 2)) (digitsToNat (ds.drop 6)))) =
      .ok (specVendorBRule2 l) := by
  unfold specVendorBRule2
  cases dashSuffix 8 l with
  | none => rfl
  | some ds =>
      rw [show (some ds).map (fun ds =>
          pydate (digitsToNat (ds.take 4))
            (digitsToNat ((ds.drop 4).take 2)) (digitsToNat (ds.drop 6))) =
          some (pydate (digitsToNat (ds.take 4))
            (digitsToNat ((ds.drop 4).take 2)) (digitsToNat (ds.drop 6))) from rfl]
      rw [attemptOpt_some_pydate _ (by simp) _ _ _]
      simp

/-- Pattern 3 of the code (string splice `f"20{ys}"`) equals spec rule
(3) (`2000 + YY`). -/
theorem attemptP3 (l : List Char) :
    attemptOpt [PyErr.valueError]
        ((dashSuffix 6 l).map (fun ds =>
          pydate (digitsToNat ('2' :: '0' :: ds.take 2))
            (digitsToNat ((ds.drop 2).take 2)) (digitsToNat (ds.drop 4)))) =
      .ok (specVendorBRule3 l) := by
  unfold specVendorBRule3
  cases hds : dashSuffix 6 l with
  | none => rfl
  | some ds =>
      have hlen : ds.length = 6 := dashSuffix_length 6 l ds hds
      have htake : (ds.take 2).length = 2 := by simp [hlen]
      rw [show (some ds).map (fun ds =>
          pydate (digitsToNat ('2' :: '0' :: ds.take 2))
            (digitsToNat ((ds.drop 2).take 2)) (digitsToNat (ds.drop 4))) =
          some (pydate (digitsToNat ('2' :: '0' :: ds.take 2))
            (digitsToNat ((ds.drop 2).take 2)) (digitsToNat (ds.drop 4))) from rfl]
      rw [attemptOpt_some_pydate _ (by simp) _ _ _]
      simp [digitsToNat_two_zero (ds.take 2) htake]

/-- Pattern 4 of the code equals spec rule (4) for an epoch-safe
`created` field. -/
theorem attemptP4 (l : List Char) (created : Option PyVal)
    (h : epochSafe created = true) :
    attemptOpt [PyErr.valueError, PyErr.typeError]
        ((dashSuffix 4 l).bind (fun ds =>
          created.map (fun cv => do
            let base ← fromtimestampDate cv
            pydate base.year (digitsToNat (ds.take 2)) (digitsToNat (ds.drop 2))))) =
      .ok (specVendorBRule4 l created) := by
  unfold specVendorBRule4 specEpochYear
  cases dashSuffix 4 l with
  | none => cases created <;> rfl
  | some ds =>
      cases created with
      | none => rfl
      | some cv =>
          cases hf : fromtimestampDate cv with
          | ok base =>
              rw [show (some ds).bind (fun ds =>
                  (some cv).map (fun cv => do
                    let base ← fromtimestampDate cv
                    pydate base.year (digitsToNat (ds.take 2)) (digitsToNat (ds.drop 2)))) =
                  some (fromtimestampDate cv >>= fun base =>
                    pydate base.year (digitsToNat (ds.take 2)) (digitsToNat (ds.drop 2)))
                  from rfl]
              rw [hf]
              rw [show (Except.ok base >>= fun base =>
                  pydate base.year (digitsToNat (ds.take 2)) (digitsToNat (ds.drop 2))) =
                  pydate base.year (digitsToNat (ds.take 2)) (digitsToNat (ds.drop 2))
                  from rfl]
              rw [attemptOpt_some_pydate _ (by simp) _ _ _]
              simp [exceptToOption, hf]
          | error e =>
              have he := fromtimestampDate_safe_caught cv e h hf
              rw [show (some ds).bind (fun ds =>
                  (some cv).map (fun cv => do
                    let base ← fromtimestampDate cv
                    pydate base.year (digitsToNat (ds.take 2)) (digitsToNat (ds.drop 2)))) =
                  some (fromtimestampDate cv >>= fun base =>
                    pydate base.year (digitsToNat (ds.take 2)) (digitsToNat (ds.drop 2)))
                  from rfl]
              rw [hf]
              rw [show ((Except.error e : Except PyErr Date) >>= fun base =>
                  pydate base.year (digitsToNat (ds.take 2)) (digitsToNat (ds.drop 2))) =
                  Except.error e from rfl]
              have hmem : e ∈ [PyErr.valueError, PyErr.typeError] := by
                rcases he with h1 | h1 <;> simp [h1]
              simp [attemptOpt, hmem, exceptToOption, hf]

/-- Pattern 5 of the code equals spec rule (5) for an epoch-safe
`created` field. -/
theorem attemptP5 (created : Option PyVal) (h : epochSafe created = true) :
    attemptOpt [PyErr.valueError, PyErr.typeError]
        (created.map (fun cv => fromtimestampDate cv)) =
      .ok (specVendorBRule5 created) := by
  unfold specVendorBRule5
  cases created with
  | none => rfl
  | some cv =>
      cases hf : fromtimestampDate cv with
      | ok d => simp [attemptOpt, exceptToOption, hf]
      | error e =>
          have he := fromtimestampDate_safe_caught cv e h hf
          have hmem : e ∈ [PyErr.valueError, PyErr.typeError] := by
            rcases he with h1 | h1 <;> simp [h1]
          simp [attemptOpt, hmem, exceptToOption, hf]

/-- For a record whose `created` epoch is convertible (or absent), the
OpenAI adapter's date extraction returns exactly the specification's
six-rule cascade without raising. -/
theorem openaiGetReleaseDate_eq_spec (r : OpenAIRaw)
    (h : epochSafe r.created = true) :
    openaiGetReleaseDate r = .ok (specVendorBReleaseDate r) := by
  unfold openaiGetReleaseDate specVendorBReleaseDate
  dsimp only
  rw [attemptP1, attemptP2, attemptP3, attemptP4 _ _ h, attemptP5 _ h]
  cases specVendorBRule1 (r.id.getD "").data with
  | some dt => simp [Option.orElse]
  | none =>
  cases specVendorBRule2 (r.id.getD "").data with
  | some dt => simp [Option.orElse]
  | none =>
  cases specVendorBRule3 (r.id.getD "").data with
  | some dt => simp [Option.orElse]
  | none =>
  cases specVendorBRule4 (r.id.getD "").data r.created with
  | some dt => simp [Option.orElse]
  | none =>
  cases specVendorBRule5 r.created with
  | some dt => simp [Option.orElse]
  | none => simp [Option.orElse]

/-- C1: for every previously persisted record R found in the seeded
combined map under its identity triple, merging any list of freshly
fetched records leaves R's binding unchanged (a fetched record is
inserted only if its identity key is absent), and R is still contained,
with all fields unchanged, in the merge engine's sorted output. -/
theorem merge_never_overwrites_existing (existing fetched : List ModelEntry)
    (R : ModelEntry)
    (h : lookupKey (seedMap existing) (identityKey R) = some R) :
    lookupKey (mergedMap existing fetched) (identityKey R) = some R ∧
      R ∈ finalModelList existing fetched := by
  have h2 : lookupKey (mergedMap existing fetched) (identityKey R) = some R := by
    unfold mergedMap
    exact lookupKey_foldl_mergeStep fetched (seedMap existing) (identityKey R) R h
  refine ⟨h2, ?_⟩
  unfold finalModelList
  rw [mem_sortBy]
  exact lookupKey_mem_values _ _ _ h2

/-- Witness for C1: a persisted record and a refetched record sharing
its identity triple but с a different release date. -/
theorem merge_never_overwrites_existing_witness :
    lookupKey (seedMap [recPersisted]) (identityKey recPersisted) = some recPersisted ∧
      (lookupKey (mergedMap [recPersisted] [recRefetched]) (identityKey recPersisted) =
          some recPersisted ∧
        recPersisted ∈ finalModelList [recPersisted] [recRefetched]) :=
  ⟨by decide,
    merge_never_overwrites_existing [recPersisted] [recRefetched] recPersisted (by decide)⟩

/-- C3 counterexample: the code sorts by
`(model_id, developer, provider)` lowercased, not by
`(developer, model_id, provider)`: with entries for developers `"Zeta"`
(model id `"a1"`) and `"alpha"` (model id `"b1"`), the `"Zeta"` entry
comes first in the merged output, and the claimed comparison does not
hold between the adjacent output entries. -/
theorem sort_key_order_counterexample :
    finalModelList [] [recAlpha, recZeta] = [recZeta, recAlpha] ∧
      recZeta.developer = "Zeta" ∧ recAlpha.developer = "alpha" ∧
      specLe recZeta recAlpha = false := by
  refine ⟨by decide, rfl, rfl, by decide⟩

/-- C3 (amended): the merged output list is sorted ascending by the key
`(model_id lowercased, developer lowercased, provider lowercased)`; in
particular, with entries for developers `"Zeta"` (model id `"a1"`) and
`"alpha"` (model id `"b1"`), the `"Zeta"` entry sorts first. -/
theorem final_list_sorted_by_code_key :
    (∀ existing fetched : List ModelEntry,
        List.Chain' (fun a b => codeLe a b = true) (finalModelList existing fetched)) ∧
      finalModelList [] [recAlpha, recZeta] = [recZeta, recAlpha] :=
  ⟨fun existing fetched => chain'_sortBy codeLe codeLe_total _, by decide⟩

/-- C5 counterexample: with no date pattern in the identifier and
`created = 10^17`, `OpenAIProvider.get_release_date` raises an uncaught
`OSError` from `datetime.fromtimestamp` (the `except` clauses catch
only `ValueError`/`TypeError`) instead of applying rule (5)/(6) of the
cascade. -/
theorem openai_epoch_oserror_counterexample :
    openaiGetReleaseDate ⟨some "model-x", some (.vint 100000000000000000)⟩ =
      .error .osError := rfl

/-- C5 (amended): for every record whose `created` Unix-epoch field
(when consulted) is within the platform-convertible timestamp range,
`OpenAIProvider.get_release_date` applies exactly the six rules of the
specification in strict precedence, an invalid calendar sub-match
falling through to the next rule; `"model-20991231"` yields
`2099-12-31` and `"model-20230230"` (invalid day, no other source)
falls through to the sentinel.  Outside that range the function raises
an uncaught `OSError`/`OverflowError` instead. -/
theorem openai_release_date_six_rules (r : OpenAIRaw)
    (h : epochSafe r.created = true) :
    openaiGetReleaseDate r = .ok (specVendorBReleaseDate r) ∧
      openaiGetReleaseDate ⟨some "model-20991231", none⟩ = .ok ⟨2099, 12, 31⟩ ∧
      openaiGetReleaseDate ⟨some "model-20230230", none⟩ = .ok sentinelDate :=
  ⟨openaiGetReleaseDate_eq_spec r h, rfl, rfl⟩

/-- Witness for C5 (amended): a record with an in-range epoch. -/
theorem openai_release_date_six_rules_witness :
    epochSafe (some (PyVal.vint 1678838400)) = true ∧
      (openaiGetReleaseDate ⟨some "gpt-4-0314", some (.vint 1678838400)⟩ =
          .ok (specVendorBReleaseDate ⟨some "gpt-4-0314", some (.vint 1678838400)⟩) ∧
        openaiGetReleaseDate ⟨some "model-20991231", none⟩ = .ok ⟨2099, 12, 31⟩ ∧
        openaiGetReleaseDate ⟨some "model-20230230", none⟩ = .ok sentinelDate) :=
  ⟨by decide,
    openai_release_date_six_rules ⟨some "gpt-4-0314", some (.vint 1678838400)⟩ (by decide)⟩

/-- When every fetched record's identity is already present, the final
sorted list is exactly the (sorted, key-distinct) existing list. -/
theorem finalModelList_no_new (existing fetched : List ModelEntry)
    (hdist : existing.Pairwise (fun x y => identityKey x ≠ identityKey y))
    (hsorted : List.Chain' (fun a b => codeLe a b = true) existing)
    (hpresent : ∀ m ∈ fetched, containsKey (seedMap existing) (identityKey m) = true) :
    finalModelList existing fetched = existing := by
  unfold finalModelList
  rw [mergedMap_of_all_present existing fetched hpresent,
    seedMap_of_distinct existing hdist]
  rw [List.map_map]
  have hmap : existing.map (Prod.snd ∘ fun m => (identityKey m, m)) = existing := by
    rw [show (Prod.snd ∘ fun m : ModelEntry => (identityKey m, m)) = id from rfl,
      List.map_id]
  rw [hmap]
  exact sortBy_eq_self codeLe existing hsorted

/-- C8: when the serialized sorted record set, after normalizing line
endings, is identical to the existing registry file's raw content and
the file exists, no write occurs and the run reports "no content
changes"; in particular, when the file holds the previously saved
sorted records and every fetched record's identity (possibly with a
different release date) is already present, the run takes the no-write
path. -/
theorem no_change_skips_write (existing fetched : List ModelEntry) (original : String)
    (hdist : existing.Pairwise (fun x y => identityKey x ≠ identityKey y))
    (hsorted : List.Chain' (fun a b => codeLe a b = true) existing)
    (hpresent : ∀ m ∈ fetched, containsKey (seedMap existing) (identityKey m) = true)
    (horig : original = serializeModels existing) :
    (∀ (ex fe : List ModelEntry) (orig : String),
        normalizeCrlf orig = normalizeCrlf (serializeModels (finalModelList ex fe)) →
        mainDecision ex fe orig true = .noChange (finalModelList ex fe).length) ∧
      mainDecision existing fetched original true = .noChange existing.length := by
  constructor
  · intro ex fe orig heq
    simp [mainDecision, heq]
  · have hfl : finalModelList existing fetched = existing :=
      finalModelList_no_new existing fetched hdist hsorted hpresent
    simp [mainDecision, hfl, horig]

/-- Witness for C8: a one-record registry file re-fetched with the same
identity but a different release date stays byte-identical. -/
theorem no_change_skips_write_witness :
    mainDecision [recPersisted] [recRefetched] (serializeModels [recPersisted]) true =
      .noChange 1 :=
  (no_change_skips_write [recPersisted] [recRefetched] (serializeModels [recPersisted])
    (by simp) (by simp) (by decide) rfl).2

/-- C2 counterexample: `OpenAIProvider.public_models` and
`GeminiProvider.public_models` propagate exceptions: a record whose
normalization fails (empty id, pydantic `min_length` violation) aborts
the whole call, and a fetch failure propagates to the caller. -/
theorem public_models_propagates_counterexample :
    openaiPublicModels (.ok [⟨some "", none⟩]) = .error .validationError ∧
      openaiPublicModels (.error .requestError) = .error .requestError ∧
      geminiPublicModels (.error .requestError) = .error .requestError :=
  ⟨rfl, rfl, rfl⟩

/-- C2 (amended): the base `Provider.public_models` and
`OpenRouterProvider.public_models` isolate failures — a fetch/filter
failure yields the empty list and a record whose normalization fails is
skipped while its siblings are kept — but the OpenAI, Gemini and
Anthropic overrides propagate exceptions instead. -/
theorem public_models_isolation :
    (∀ (Raw : Type) (e : PyErr) (normF : Raw → Except PyErr ModelEntry),
        basePublicModels (.error e) normF = []) ∧
      (∀ (Raw : Type) (pub : List Raw) (normF : Raw → Except PyErr ModelEntry),
        basePublicModels (.ok pub) normF =
          pub.filterMap (fun r => exceptToOption (normF r))) ∧
      (∀ e : PyErr, openrouterPublicModels (.error e) = []) ∧
      (∀ raw : List OpenRouterRaw,
        openrouterPublicModels (.ok raw) =
          raw.filterMap (fun r => exceptToOption (openrouterNormalize r))) :=
  ⟨fun _ _ _ => rfl,
    fun _ pub normF => by
      unfold basePublicModels
      simpa using foldl_collect_eq_filterMap normF pub [],
    fun _ => rfl,
    fun raw => by
      unfold openrouterPublicModels
      simpa using foldl_collect_eq_filterMap openrouterNormalize raw []⟩

/-- C4 counterexample: `AnthropicProvider.get_release_date` raises an
uncaught `AttributeError` on a record whose `created_at` field is a
(truthy) integer (`.replace` on a non-string, with the `except` clause
covering only `ValueError`/`TypeError`), and
`OpenRouterProvider.get_release_date` raises an uncaught `OSError` on
an out-of-range `created` epoch. -/
theorem anthropic_release_date_raises_counterexample :
    anthropicGetReleaseDate ⟨some "claude-3-opus", some (.vint 1718841600)⟩ =
        .error .attributeError ∧
      openrouterGetReleaseDate
          ⟨some "openai/gpt-4", none, none, some (.vint 100000000000000000)⟩ =
        .error .osError :=
  ⟨rfl, rfl⟩

/-- For an epoch-safe `created` field, the OpenRouter date extraction
never raises. -/
theorem openrouterGetReleaseDate_safe (u : OpenRouterRaw)
    (h : epochSafe u.created = true) :
    (openrouterGetReleaseDate u).isOk = true := by
  unfold openrouterGetReleaseDate
  cases hc : u.created with
  | none => rfl
  | some cv =>
      cases hf : fromtimestampDate cv with
      | ok d => simp [attemptOpt, hf, Except.isOk, Except.toBool]
      | error e =>
          have he : e = .valueError ∨ e = .typeError :=
            fromtimestampDate_safe_caught cv e (hc ▸ h) hf
          have hmem : e ∈ [PyErr.typeError, PyErr.valueError] := by
            rcases he with h1 | h1 <;> simp [h1]
          simp [attemptOpt, hf, hmem, Except.isOk, Except.toBool]

/-- C4 (amended): every adapter's `get_release_date` returns the exact
sentinel `date(9999, 12, 31)` — never null, never today — whenever no
release date can be determined, and never raises provided the record's
fields carry their expected runtime types and any consulted `created`
epoch is within the platform-convertible timestamp range; outside that,
Anthropic raises `AttributeError` on a truthy non-string `created_at`
and OpenAI/OpenRouter raise uncaught `OSError`/`OverflowError` from
`datetime.fromtimestamp`. -/
theorem release_date_total_and_sentinel (a : AnthropicRaw)
    (ha : anthCreatedIsStr a = true) (o : OpenAIRaw)
    (ho : epochSafe o.created = true) (o2 : OpenAIRaw)
    (ho2 : openaiNoDateInfo o2 = true) (g : GeminiRaw)
    (hg : geminiNoDateInfo g = true) (u : OpenRouterRaw)
    (hu : epochSafe u.created = true) :
    (anthropicGetReleaseDate a).isOk = true ∧
      anthropicGetReleaseDate ⟨a.id, none⟩ = .ok sentinelDate ∧
      (openaiGetReleaseDate o).isOk = true ∧
      openaiGetReleaseDate o2 = .ok sentinelDate ∧
      geminiGetReleaseDate g = sentinelDate ∧
      (openrouterGetReleaseDate u).isOk = true ∧
      openrouterGetReleaseDate ⟨u.id, u.name, u.description, none⟩ =
        .ok sentinelDate := by
  refine ⟨?_, rfl, ?_, ?_, ?_, openrouterGetReleaseDate_safe u hu, rfl⟩
  · unfold anthropicGetReleaseDate
    cases hca : a.created_at with
    | none => rfl
    | some v =>
        cases v with
        | vstr s =>
            dsimp only
            by_cases ht : pyTruthy (PyVal.vstr s) = true
            · rw [if_pos ht]
              cases parseIsoDatetimeDate (pyReplace s "Z" "+00:00") <;> rfl
            · rw [if_neg ht]
              rfl
        | vint n =>
            dsimp only
            unfold anthCreatedIsStr at ha
            rw [hca] at ha
            simp at ha
  · rw [openaiGetReleaseDate_eq_spec o ho]
    rfl
  · have hcre : o2.created = none := by
      unfold openaiNoDateInfo at ho2
      simp only [Bool.and_eq_true, Option.isNone_iff_eq_none] at ho2
      exact ho2.2
    have hsafe : epochSafe o2.created = true := by rw [hcre]; rfl
    rw [openaiGetReleaseDate_eq_spec o2 hsafe]
    unfold openaiNoDateInfo at ho2
    simp only [Bool.and_eq_true, Option.isNone_iff_eq_none] at ho2
    unfold specVendorBReleaseDate specVendorBRule1 specVendorBRule2
    unfold specVendorBRule3 specVendorBRule4 specVendorBRule5
    dsimp only
    rw [ho2.1.1.1.1, ho2.1.1.1.2, ho2.1.1.2, ho2.1.2, ho2.2]
    rfl
  · unfold geminiGetReleaseDate
    unfold geminiNoDateInfo at hg
    simp only [Option.isNone_iff_eq_none] at hg
    simp [hg]

/-- Witness for C4 (amended): concrete well-typed, epoch-safe records
for all four adapters. -/
theorem release_date_total_and_sentinel_witness :
    (anthropicGetReleaseDate ⟨some "claude-3", some (.vstr "nonsense")⟩).isOk = true ∧
      anthropicGetReleaseDate ⟨some "claude-3", none⟩ = .ok sentinelDate ∧
      (openaiGetReleaseDate ⟨some "gpt-4-0314", some (.vint 1678838400)⟩).isOk = true ∧
      openaiGetReleaseDate ⟨some "model-x", none⟩ = .ok sentinelDate ∧
      geminiGetReleaseDate ⟨some "models/gemini-pro"⟩ = sentinelDate ∧
      (openrouterGetReleaseDate
          ⟨some "openai/gpt-4", some "GPT-4", none, some (.vint 1678838400)⟩).isOk = true ∧
      openrouterGetReleaseDate ⟨some "openai/gpt-4", some "GPT-4", none, none⟩ =
        .ok sentinelDate :=
  release_date_total_and_sentinel ⟨some "claude-3", some (.vstr "nonsense")⟩ rfl
    ⟨some "gpt-4-0314", some (.vint 1678838400)⟩ (by decide)
    ⟨some "model-x", none⟩ (by decide) ⟨some "models/gemini-pro"⟩ (by decide)
    ⟨some "openai/gpt-4", some "GPT-4", none, some (.vint 1678838400)⟩ (by decide)

/-- C7 counterexample: if the first page succeeds but carries zero
models (with a continuation token) and the second page request fails,
`fetch_models` re-raises the exception (`if not all_models: raise`)
even though a page was already successfully retrieved — the claim's
"returns the models gathered so far after at least one successful
page" does not hold for an empty first page. -/
theorem gemini_pagination_empty_page_counterexample :
    geminiFetchModels [GeminiResp.page ([] : List Nat) (some "tok"),
        GeminiResp.fail .requestError] =
      some (.error .requestError) := rfl

/-- C7 (amended): `GeminiProvider.fetch_models` paginates until no
continuation token is supplied; a page failure after at least one model
has been gathered returns the models gathered so far; a failure while
no models have been gathered yet — in particular a first-page failure —
propagates to the retry wrapper. -/
theorem gemini_pagination_contract {α : Type} (ms ms2 : List α) (tok tok2 : String)
    (e : PyErr) (rest : List (GeminiResp α)) (h : ms ≠ []) :
    geminiFetchModels [GeminiResp.page ms none] = some (.ok ms) ∧
      geminiFetchModels (GeminiResp.page ms (some tok) :: GeminiResp.fail e :: rest) =
        some (.ok ms) ∧
      geminiFetchModels (GeminiResp.fail e :: rest) = some (.error e) ∧
      geminiFetchModels (GeminiResp.page ms (some tok) ::
          GeminiResp.page ms2 (some tok2) :: GeminiResp.page [] none :: rest) =
        some (.ok (ms ++ ms2)) := by
  have hne : ms.isEmpty = false := by
    cases ms with
    | nil => exact absurd rfl h
    | cons a l => rfl
  refine ⟨?_, ?_, ?_, ?_⟩
  · simp [geminiFetchModels, geminiFetchAux]
  · simp [geminiFetchModels, geminiFetchAux, hne]
  · simp [geminiFetchModels, geminiFetchAux]
  · simp [geminiFetchModels, geminiFetchAux]

/-- Witness for C7 (amended). -/
theorem gemini_pagination_contract_witness :
    geminiFetchModels [GeminiResp.page [1, 2] none] = some (.ok [1, 2]) ∧
      geminiFetchModels (GeminiResp.page [1, 2] (some "t") ::
          GeminiResp.fail .requestError :: []) = some (.ok [1, 2]) ∧
      geminiFetchModels (GeminiResp.fail (α := Nat) .requestError :: []) =
        some (.error .requestError) ∧
      geminiFetchModels (GeminiResp.page [1, 2] (some "t") ::
          GeminiResp.page [3] (some "u") :: GeminiResp.page [] none :: []) =
        some (.ok ([1, 2] ++ [3])) :=
  gemini_pagination_contract [1, 2] [3] "t" "u" .requestError [] (by decide)

/-- C10: a failing write inside `save_models` is caught and logged, the
process still prints the "updated with N models" summary and exits with
status 0 — externally indistinguishable from a successful update. -/
theorem write_failure_invisible (existing fetched : List ModelEntry)
    (orig : String) (fileExists : Bool) (e : String) (n : Nat)
    (h : mainDecision existing fetched orig fileExists = .updated n) :
    mainFinish existing fetched orig fileExists (.error e) =
        ("updated with " ++ toString n ++ " models.", 0, some false) ∧
      (mainFinish existing fetched orig fileExists (.error e)).1 =
        (mainFinish existing fetched orig fileExists (.ok ())).1 ∧
      (mainFinish existing fetched orig fileExists (.error e)).2.1 = 0 := by
  unfold mainFinish
  rw [h]
  exact ⟨rfl, rfl, rfl⟩

/-- Witness for C10: a run that writes one model with a failing disk
write. -/
theorem write_failure_invisible_witness :
    mainFinish [] [recPersisted] "" false (.error "disk full") =
        ("updated with " ++ toString 1 ++ " models.", 0, some false) ∧
      (mainFinish [] [recPersisted] "" false (.error "disk full")).1 =
        (mainFinish [] [recPersisted] "" false (.ok ())).1 ∧
      (mainFinish [] [recPersisted] "" false (.error "disk full")).2.1 = 0 :=
  write_failure_invisible [] [recPersisted] "" false "disk full" 1
    (by set_option maxRecDepth 8000 in decide)

/-- Shifting the geometric back-off schedule by one round. -/
theorem backoff_schedule_shift (cur backoff k : Nat) :
    (List.range (k + 1)).map (fun i => cur * backoff ^ i) =
      cur :: (List.range k).map (fun i => (cur * backoff) * backoff ^ i) := by
  rw [List.range_succ_eq_map, List.map_cons, List.map_map]
  refine congrArg₂ _ (by simp) ?_
  apply List.map_congr_left
  intro i _
  simp [pow_succ]
  ring

/-- The retry loop returns the first success, having slept the
geometric back-off schedule of the preceding failures. -/
theorem retryAux_success {E A : Type} (outcomes : Nat → Except E A)
    (backoff : Nat) (k : Nat) :
    ∀ (idx remaining cur : Nat) (sleeps : List Nat) (a : A),
      k < remaining → outcomes (idx + k) = .ok a →
      (∀ j, j < k → (outcomes (idx + j)).isOk = false) →
      retryAux outcomes backoff idx remaining cur sleeps =
        (.ok a, sleeps ++ (List.range k).map (fun i => cur * backoff ^ i)) := by
  induction k with
  | zero =>
      intro idx remaining cur sleeps a hk hok _
      cases remaining with
      | zero => omega
      | succ r =>
          unfold retryAux
          simp only [Nat.add_zero] at hok
          simp [hok]
  | succ k ih =>
      intro idx remaining cur sleeps a hk hok hfail
      cases remaining with
      | zero => omega
      | succ r =>
          have h0 : (outcomes idx).isOk = false := by
            simpa using hfail 0 (Nat.succ_pos k)
          unfold retryAux
          cases hout : outcomes idx with
          | ok a2 => rw [hout] at h0; simp [Except.isOk, Except.toBool] at h0
          | error e =>
              have hr : ¬ (r = 0) := by omega
              simp only [hr, if_false]
              have hok2 : outcomes (idx + 1 + k) = .ok a := by
                rw [show idx + 1 + k = idx + (k + 1) by omega]
                exact hok
              have hfail2 : ∀ j, j < k → (outcomes (idx + 1 + j)).isOk = false := by
                intro j hj
                rw [show idx + 1 + j = idx + (j + 1) by omega]
                exact hfail (j + 1) (by omega)
              rw [ih (idx + 1) r (cur * backoff) (sleeps ++ [cur]) a (by omega) hok2 hfail2]
              rw [backoff_schedule_shift]
              simp

/-- The retry loop re-raises the last error after exhausting all
attempts, having slept between all but the last. -/
theorem retryAux_allfail {E A : Type} (outcomes : Nat → Except E A)
    (backoff : Nat) (errf : Nat → E) :
    ∀ (remaining idx cur : Nat) (sleeps : List Nat), 1 ≤ remaining →
      (∀ j, j < remaining → outcomes (idx + j) = .error (errf (idx + j))) →
      retryAux outcomes backoff idx remaining cur sleeps =
        (Except.error (some (errf (idx + remaining - 1))),
          sleeps ++ (List.range (remaining - 1)).map (fun i => cur * backoff ^ i)) := by
  intro remaining
  induction remaining with
  | zero => intro idx cur sleeps h; omega
  | succ r ih =>
      intro idx cur sleeps _ hall
      have h0 : outcomes idx = .error (errf idx) := by
        simpa using hall 0 (Nat.succ_pos r)
      unfold retryAux
      rw [h0]
      by_cases hr : r = 0
      · subst hr
        simp
      · simp only [hr, if_false]
        have hall2 : ∀ j, j < r → outcomes (idx + 1 + j) = .error (errf (idx + 1 + j)) := by
          intro j hj
          rw [show idx + 1 + j = idx + (j + 1) by omega]
          exact hall (j + 1) (by omega)
        rw [ih (idx + 1) (cur * backoff) (sleeps ++ [cur]) (by omega) hall2]
        have hidx : idx + 1 + r - 1 = idx + (r + 1) - 1 := by omega
        rw [hidx]
        have hk : r = (r - 1) + 1 := by omega
        rw [show (List.range (r + 1 - 1)).map (fun i => cur * backoff ^ i) =
            (List.range r).map (fun i => cur * backoff ^ i) by simp]
        rw [hk, backoff_schedule_shift]
        simp [hk.symm]

/-- C9: the retry wrapper returns the wrapped operation's first
successful result immediately, sleeping the current delay and
multiplying it by the backoff factor between failed attempts, and after
the final failed attempt re-raises the last exception unchanged. -/
theorem retry_backoff_contract {E A : Type} (outcomes : Nat → Except E A)
    (attempts delay backoff : Nat) (h : 1 ≤ attempts) :
    (∀ (k : Nat) (a : A), k < attempts → outcomes k = .ok a →
        (∀ j, j < k → (outcomes j).isOk = false) →
        retryRun outcomes attempts delay backoff =
          (.ok a, backoffSleeps delay backoff k)) ∧
      (∀ errf : Nat → E, (∀ j, j < attempts → outcomes j = .error (errf j)) →
        retryRun outcomes attempts delay backoff =
          (.error (some (errf (attempts - 1))),
            backoffSleeps delay backoff (attempts - 1))) := by
  constructor
  · intro k a hk hok hfail
    unfold retryRun backoffSleeps
    have := retryAux_success outcomes backoff k 0 attempts delay [] a hk
      (by simpa using hok) (by simpa using hfail)
    simpa using this
  · intro errf hall
    unfold retryRun backoffSleeps
    have := retryAux_allfail outcomes backoff errf attempts 0 delay [] h
      (by simpa using hall)
    simpa using this

/-- Witness for C9: three attempts with the first two failing and the
third succeeding, and three attempts all failing. -/
theorem retry_backoff_contract_witness :
    retryRun (fun i => if i < 2 then Except.error "boom" else Except.ok 42) 3 1 2 =
        (.ok 42, backoffSleeps 1 2 2) ∧
      retryRun (fun i => (Except.error (toString i) : Except String Nat)) 3 1 2 =
        (.error (some (toString 2)), backoffSleeps 1 2 2) :=
  ⟨(retry_backoff_contract (fun i => if i < 2 then Except.error "boom" else Except.ok 42)
      3 1 2 (by decide)).1 2 42 (by decide) rfl (by decide),
    by
      have h2 := (retry_backoff_contract
        (fun i => (Except.error (toString i) : Except String Nat)) 3 1 2 (by decide)).2
        (fun i => toString i) (fun j _ => rfl)
      simpa using h2⟩
